import Mathlib

/-!
Verification of the zugspaet snapshot-import pipeline.

The definitions below are a shallow embedding of the Python sources
`import_data_to_postgres.py`, `db_utils.py` and `fetch_data.py`:
XML snapshot files become explicit structures, pandas frames become
lists of records, timestamps become minutes-since-day-one naturals,
database state becomes an explicit record of committed and pending
rows, and Python exceptions become `Except`.
-/

set_option autoImplicit false

namespace Zug

/-! ### Python-style string helpers -/

/-- Numeric value of a decimal digit character. -/
def dval (c : Char) : Nat := c.toNat - 48

/-- Characters stripped by Python's `int(str)` conversion. -/
def isPySpace (c : Char) : Bool :=
  c == ' ' || c == '\t' || c == '\n' || c == '\r' || c == '\x0b' || c == '\x0c'

/-- Strip leading and trailing whitespace, as `int(str)` does. -/
def stripWs (l : List Char) : List Char :=
  ((l.dropWhile isPySpace).reverse.dropWhile isPySpace).reverse

/-- Digits of a Python integer literal after the first one: single
underscores are allowed between digits. -/
def parseDigitsU (acc : Nat) : List Char → Option Nat
  | [] => some acc
  | c :: rest =>
      if c = '_' then
        match rest with
        | [] => none
        | c2 :: rest2 =>
            if c2.isDigit then parseDigitsU (acc * 10 + dval c2) rest2 else none
      else if c.isDigit then parseDigitsU (acc * 10 + dval c) rest else none

/-- An unsigned run of digits (must start with a digit). -/
def parseUInt : List Char → Option Nat
  | [] => none
  | c :: rest => if c.isDigit then parseDigitsU (dval c) rest else none

/-- Python's `int(str)`: optional surrounding whitespace, optional sign,
then digits (with underscores between digits); `none` models the
`ValueError` raised on anything else. -/
def pythonInt (s : String) : Option Int :=
  match stripWs s.toList with
  | [] => none
  | c :: rest =>
      if c = '+' then (parseUInt rest).map (fun n => (n : Int))
      else if c = '-' then (parseUInt rest).map (fun n => -(n : Int))
      else (parseUInt (c :: rest)).map (fun n => (n : Int))

/-- Python `f"{x}"` applied to an `Optional[str]`. -/
def pyFormat : Option String → String
  | some s => s
  | none => "None"

/-- Is `sub` a leading block of `l`? -/
def listSubAt : List Char → List Char → Bool
  | [], _ => true
  | _ :: _, [] => false
  | a :: as, b :: bs => a == b && listSubAt as bs

/-- Does `l` contain `sub` as a contiguous run? -/
def listHasSub (sub : List Char) : List Char → Bool
  | [] => listSubAt sub []
  | c :: tl => listSubAt sub (c :: tl) || listHasSub sub tl

/-- Python's `sub in s` on strings. -/
def strHasSub (s sub : String) : Bool := listHasSub sub.toList s.toList

/-- Split a character list at every occurrence of `sep`. -/
def splitChar (sep : Char) : List Char → List (List Char)
  | [] => [[]]
  | c :: rest =>
      let r := splitChar sep rest
      if c = sep then [] :: r
      else
        match r with
        | [] => [[c]]
        | h :: t => (c :: h) :: t

/-- Python's `s.split(sep)` for a one-character separator, as used with
`"-"` on stop ids and `"|"` on planned paths. -/
def pySplit (s : String) (sep : Char) : List String :=
  (splitChar sep s.toList).map (fun cs => String.mk cs)

/-- Lexicographic comparison of character lists by code point, the order
Python uses to compare the path strings handed to `sorted`. -/
def charListLe : List Char → List Char → Bool
  | [], _ => true
  | _ :: _, [] => false
  | a :: as, b :: bs =>
      if a < b then true else if b < a then false else charListLe as bs

/-- Filename order used by `sorted(date_folder_path.iterdir())`. -/
def pathLe (a b : String) : Bool := charListLe a.toList b.toList

/-- Insert into a sorted list, keeping earlier-inserted elements first on
ties (stability, as Python's `sorted`). -/
def insertLe {α : Type} (le : α → α → Bool) (a : α) : List α → List α
  | [] => [a]
  | b :: bs => if le a b then a :: b :: bs else b :: insertLe le a bs

/-- Stable insertion sort modelling Python's `sorted`. -/
def pySorted {α : Type} (le : α → α → Bool) : List α → List α
  | [] => []
  | a :: as => insertLe le a (pySorted le as)

/-- `DataFrame.drop_duplicates()`: keep the first occurrence of each
row, drop later exact duplicates. -/
def dropDuplicates {α : Type} [DecidableEq α] (l : List α) : List α :=
  go [] l
where
  go (seen : List α) : List α → List α
    | [] => []
    | x :: xs => if x ∈ seen then go seen xs else x :: go (x :: seen) xs

/-! ### Timestamps

`pd.to_datetime(..., format="%y%m%d%H%M", errors="coerce")` is embedded
as a parser into minutes counted from day 1 of year 1 (proleptic
Gregorian), so that subtracting two timestamps gives the pandas delta
in minutes exactly. -/

def isLeapYear (y : Nat) : Bool := y % 4 == 0 && (y % 100 != 0 || y % 400 == 0)

def daysInMonth (y m : Nat) : Nat :=
  if m = 2 then (if isLeapYear y then 29 else 28)
  else if m = 4 ∨ m = 6 ∨ m = 9 ∨ m = 11 then 30
  else 31

/-- Days in months `1..m` of year `y`. -/
def cumDays (y : Nat) : Nat → Nat
  | 0 => 0
  | m + 1 => cumDays y m + daysInMonth y (m + 1)

/-- Rata-die day number of a Gregorian date. -/
def rataDie (y m d : Nat) : Nat :=
  365 * (y - 1) + (y - 1) / 4 - (y - 1) / 100 + (y - 1) / 400 + cumDays y (m - 1) + (d - 1)

/-- Minutes since the epoch of a calendar timestamp. -/
def tsMinutes (y mo d h mi : Nat) : Nat := (rataDie y mo d * 24 + h) * 60 + mi

/-- Strict `%y%m%d%H%M` parse; `%y` follows the strptime century rule.
`none` is pandas `NaT` (the `errors="coerce"` path). -/
def parseYYMMDDHHMM (s : String) : Option Nat :=
  match s.toList with
  | [a, b, c, d, e, f, g, h, i, j] =>
      if (a.isDigit && b.isDigit && c.isDigit && d.isDigit && e.isDigit &&
          f.isDigit && g.isDigit && h.isDigit && i.isDigit && j.isDigit) then
        let yy := dval a * 10 + dval b
        let mo := dval c * 10 + dval d
        let dy := dval e * 10 + dval f
        let hr := dval g * 10 + dval h
        let mi := dval i * 10 + dval j
        let yr := if yy ≤ 68 then 2000 + yy else 1900 + yy
        if 1 ≤ mo ∧ mo ≤ 12 ∧ 1 ≤ dy ∧ dy ≤ daysInMonth yr mo ∧ hr ≤ 23 ∧ mi ≤ 59 then
          some (tsMinutes yr mo dy hr mi)
        else none
      else none
  | _ => none

/-- `pd.to_datetime` on a column cell: `None` stays missing, an
unparseable string coerces to `NaT`. -/
def pdToDatetime (s : Option String) : Option Nat := s.bind parseYYMMDDHHMM

/-! ### XML snapshot model

One `<s>` stop element carries an optional `<tl>` (train label) child
and optional `<ar>`/`<dp>` children; `ElementTree.get` on a missing
attribute returns `None`, hence the `Option String` fields.
`wellFormed := false` models a file on which `ET.parse` raises. -/

structure TlElem where
  c : Option String := none
  n : Option String := none
deriving DecidableEq, Repr

structure SubElem where
  l : Option String := none
  pt : Option String := none
  ppth : Option String := none
  ct : Option String := none
  clt : Option String := none
deriving DecidableEq, Repr

structure StopElem where
  id : String
  tl : Option TlElem := none
  ar : Option SubElem := none
  dp : Option SubElem := none
deriving DecidableEq, Repr

structure XmlFile where
  name : String
  station : Option String := none
  stops : List StopElem := []
  wellFormed : Bool := true
deriving DecidableEq, Repr

/-! ### Plan parsing (`get_plan_xml_rows`, `get_plan_db`) -/

/-- One raw row appended by `get_plan_xml_rows` (times still strings). -/
structure PlanRow where
  id : String
  station : Option String
  train_name : Option String
  final_destination_station : Option String
  train_type : Option String
  arrival_planned_time : Option String
  departure_planned_time : Option String
  train_line_ride_id : String
  train_line_station_num : Int
deriving DecidableEq, Repr

/-- `station = alternative_station_names[station]` when the station is a
key of the mapping. -/
def applyAltNames (alt : List (String × String)) (station : Option String) : Option String :=
  station.map (fun st => (alt.lookup st).getD st)

/-- The `train_name` derivation of `get_plan_xml_rows`. -/
def trainNameOf (train_type train_number ar_l dp_l : Option String) : Option String :=
  if train_type = some "IC" ∨ train_type = some "ICE" ∨ train_type = some "EC" then
    some (pyFormat train_type ++ " " ++ pyFormat train_number)
  else if ar_l.isSome then
    some (pyFormat train_type ++ " " ++ pyFormat ar_l)
  else if dp_l.isSome then
    some (pyFormat train_type ++ " " ++ pyFormat dp_l)
  else train_type

/-- The loop body of `get_plan_xml_rows` for one `<s>` element; `error`
is the `ValueError` raised by `int(s_id_split[-1])`. -/
def planRowOf (station : Option String) (s : StopElem) : Except Unit PlanRow :=
  let train_type := s.tl.bind (·.c)
  let train_number := s.tl.bind (·.n)
  let ar_l := s.ar.bind (·.l)
  let dp_l := s.dp.bind (·.l)
  let train_name := trainNameOf train_type train_number ar_l dp_l
  let s_id_split := pySplit s.id '-'
  let dp_ppth := s.dp.bind (·.ppth)
  let final_destination_station :=
    match dp_ppth with
    | none => station
    | some p => some ((pySplit p '|').getLast!)
  match pythonInt s_id_split.getLast! with
  | none => .error ()
  | some n =>
      .ok { id := s.id
            station := station
            train_name := train_name
            final_destination_station := final_destination_station
            train_type := train_type
            arrival_planned_time := s.ar.bind (·.pt)
            departure_planned_time := s.dp.bind (·.pt)
            train_line_ride_id := String.intercalate "-" s_id_split.dropLast
            train_line_station_num := n }

/-- `get_plan_xml_rows`: parse one plan file into its rows; `error`
models any exception escaping the call (`ET.parse` or `int`). -/
def get_plan_xml_rows (alt : List (String × String)) (f : XmlFile) :
    Except Unit (List PlanRow) :=
  if f.wellFormed then f.stops.mapM (planRowOf (applyAltNames alt f.station))
  else .error ()

/-- A plan row after the two `pd.to_datetime` column conversions. -/
structure PlanRec where
  id : String
  station : Option String
  train_name : Option String
  final_destination_station : Option String
  train_type : Option String
  arrival_planned_time : Option Nat
  departure_planned_time : Option Nat
  train_line_ride_id : String
  train_line_station_num : Int
deriving DecidableEq, Repr

def convertPlanRow (r : PlanRow) : PlanRec :=
  { id := r.id
    station := r.station
    train_name := r.train_name
    final_destination_station := r.final_destination_station
    train_type := r.train_type
    arrival_planned_time := pdToDatetime r.arrival_planned_time
    departure_planned_time := pdToDatetime r.departure_planned_time
    train_line_ride_id := r.train_line_ride_id
    train_line_station_num := r.train_line_station_num }

/-- `get_plan_db` restricted to one date folder: iterate the files in
sorted order, keep those whose name contains `"plan"`, concatenate
their rows, convert the time columns, drop duplicate rows. -/
def get_plan_db (alt : List (String × String)) (files : List XmlFile) :
    Except Unit (List PlanRec) :=
  match ((pySorted (fun a b => pathLe a.name b.name) files).filter
      (fun f => strHasSub f.name "plan")).mapM (get_plan_xml_rows alt) with
  | .error e => .error e
  | .ok rowLists => .ok (dropDuplicates (rowLists.flatten.map convertPlanRow))

/-! ### Change (fchg) parsing (`get_fchg_xml_rows`, `get_fchg_db`) -/

/-- One value of the `id_to_data` accumulator (times still strings). -/
structure ChangeRow where
  id : String
  arrival_change_time : Option String
  departure_change_time : Option String
  is_canceled : Bool
deriving DecidableEq, Repr

/-- The `id_to_data` Python dict: an association list preserving
insertion order, with overwrite keeping the original position. -/
abbrev FchgDict := List (String × ChangeRow)

/-- `id_to_data[s_id] = row` with Python dict semantics. -/
def dictInsert (m : FchgDict) (k : String) (v : ChangeRow) : FchgDict :=
  if (m.lookup k).isSome then m.map (fun p => if p.1 = k then (k, v) else p)
  else m ++ [(k, v)]

/-- The accumulator value built for one `<s>` element of a change file:
`is_canceled` is true when either side carries a cancellation time. -/
def chgRowOf (s : StopElem) : ChangeRow :=
  { id := s.id
    arrival_change_time := s.ar.bind (·.ct)
    departure_change_time := s.dp.bind (·.ct)
    is_canceled := !(s.ar.bind (·.clt) = none ∧ s.dp.bind (·.clt) = none : Bool) }

/-- The `continue` guard: the entry carries neither a change time nor a
cancellation marker. -/
def fchgSkipQ (s : StopElem) : Bool :=
  (s.ar.bind (·.ct) = none ∧ s.dp.bind (·.ct) = none : Bool) && !(chgRowOf s).is_canceled

/-- The loop body of `get_fchg_xml_rows` for one `<s>` element: skip the
entry when it has neither change time nor cancellation marker, else
overwrite the accumulator entry for its id wholesale. -/
def fchgStep (m : FchgDict) (s : StopElem) : FchgDict :=
  if fchgSkipQ s then m else dictInsert m s.id (chgRowOf s)

/-- `get_fchg_xml_rows`: fold one change file into the accumulator;
`error` models `ET.parse` raising on a malformed file. -/
def get_fchg_xml_rows (f : XmlFile) (m : FchgDict) : Except Unit FchgDict :=
  if f.wellFormed then .ok (f.stops.foldl fchgStep m) else .error ()

/-- A change row after the two `pd.to_datetime` column conversions. -/
structure ChangeRec where
  id : String
  arrival_change_time : Option Nat
  departure_change_time : Option Nat
  is_canceled : Bool
deriving DecidableEq, Repr

def convertChangeRow (r : ChangeRow) : ChangeRec :=
  { id := r.id
    arrival_change_time := pdToDatetime r.arrival_change_time
    departure_change_time := pdToDatetime r.departure_change_time
    is_canceled := r.is_canceled }

/-- The file loop of `get_fchg_db`: fold each file into the accumulator
in order, propagating a parse exception. -/
def fchgFold : List XmlFile → FchgDict → Except Unit FchgDict
  | [], m => .ok m
  | f :: fs, m =>
      match get_fchg_xml_rows f m with
      | .error e => .error e
      | .ok m2 => fchgFold fs m2

/-- `get_fchg_db` restricted to one date folder: iterate files in sorted
order, keep those whose name contains `"fchg"`, fold into the dict,
take `dict.values()`, convert times, drop duplicate rows. -/
def get_fchg_db (files : List XmlFile) : Except Unit (List ChangeRec) :=
  match fchgFold ((pySorted (fun a b => pathLe a.name b.name) files).filter
      (fun f => strHasSub f.name "fchg")) [] with
  | .error e => .error e
  | .ok m => .ok (dropDuplicates ((m.map Prod.snd).map convertChangeRow))

/-! ### Reconciliation (the frame transformations of `process_date_folder`) -/

/-- numpy's cast of an (exact) integer to `int32`. -/
def toInt32 (x : Int) : Int := (x + 2147483648) % 4294967296 - 2147483648

/-- One persisted `train_data` row, in the column order selected by
`process_date_folder` (minus the dropped `id`). -/
structure TrainRow where
  station : Option String
  train_name : Option String
  final_destination_station : Option String
  delay_in_min : Int
  time : Option Nat
  is_canceled : Bool
  train_type : Option String
  train_line_ride_id : String
  train_line_station_num : Int
  arrival_planned_time : Option Nat
  arrival_change_time : Option Nat
  departure_planned_time : Option Nat
  departure_change_time : Option Nat
deriving DecidableEq, Repr

/-- Pointwise timestamp subtraction; `none` is a `NaT`-valued delta. -/
def optSub : Option Nat → Option Nat → Option Int
  | some x, some y => some ((x : Int) - (y : Int))
  | _, _ => none

/-- `pd.merge(plan_df, fchg_df, on="id", how="left")`: each plan row
joined against every change row sharing its id, or against nothing. -/
def pdMergeLeft (plan : List PlanRec) (chg : List ChangeRec) :
    List (PlanRec × Option ChangeRec) :=
  plan.flatMap (fun p =>
    match chg.filter (fun c => c.id = p.id) with
    | [] => [(p, none)]
    | ms => ms.map (fun c => (p, some c)))

/-- The column transformations of `process_date_folder` applied to one
joined row: fill `is_canceled` with `False`, fill each change time with
its planned time, compute the two deltas in minutes, pick the delay and
effective time, and cast to the final dtypes. `error` is the
`ValueError` that `astype("int32")` raises on a `NaN` delay. -/
def reconcileRowE (p : PlanRec) (c : Option ChangeRec) : Except Unit TrainRow :=
  let is_canceled := (c.map (·.is_canceled)).getD false
  let dct := (c.bind (·.departure_change_time)).orElse (fun _ => p.departure_planned_time)
  let act := (c.bind (·.arrival_change_time)).orElse (fun _ => p.arrival_planned_time)
  let depDelta := optSub dct p.departure_planned_time
  let arrDelta := optSub act p.arrival_planned_time
  match depDelta.orElse (fun _ => arrDelta) with
  | none => .error ()
  | some d =>
      .ok { station := p.station
            train_name := p.train_name
            final_destination_station := p.final_destination_station
            delay_in_min := toInt32 d
            time := dct.orElse (fun _ => act)
            is_canceled := is_canceled
            train_type := p.train_type
            train_line_ride_id := p.train_line_ride_id
            train_line_station_num := toInt32 p.train_line_station_num
            arrival_planned_time := p.arrival_planned_time
            arrival_change_time := act
            departure_planned_time := p.departure_planned_time
            departure_change_time := dct }

/-- All joined rows; `astype` failing on any row fails the whole frame. -/
def reconcileRows (joined : List (PlanRec × Option ChangeRec)) :
    Except Unit (List TrainRow) :=
  joined.mapM (fun pc => reconcileRowE pc.1 pc.2)

/-- The parse-and-transform part of `process_date_folder` for one date
folder, up to the rows handed to `bulk_insert_train_data`. -/
def reconcileDate (alt : List (String × String)) (files : List XmlFile) :
    Except Unit (List TrainRow) :=
  match get_plan_db alt files with
  | .error e => .error e
  | .ok plan =>
      match get_fchg_db files with
      | .error e => .error e
      | .ok chg => reconcileRows (pdMergeLeft plan chg)

/-! ### Database model (`db_utils.py`)

Postgres state as seen through one connection: committed rows and
marks, plus the pending (uncommitted) work of the open transaction.
`pgCommit` is `conn.commit()`; a Python exception aborting the open
transaction discards the pending work (`pgAbort`). -/

structure PgState where
  rows : List TrainRow
  marks : List String
  pendingRows : List TrainRow
  pendingMarks : List String
deriving DecidableEq, Repr

def pgCommit (s : PgState) : PgState :=
  { rows := s.rows ++ s.pendingRows
    marks := s.marks ++ s.pendingMarks
    pendingRows := []
    pendingMarks := [] }

def pgAbort (s : PgState) : PgState :=
  { s with pendingRows := [], pendingMarks := [] }

/-- The `execute_values` insert into `train_data` (uncommitted). -/
def execValuesTrainData (vals : List TrainRow) (s : PgState) : PgState :=
  { s with pendingRows := s.pendingRows ++ vals }

/-- `bulk_insert_train_data`: no-op on an empty frame, else insert the
rows and `conn.commit()` before returning. -/
def bulk_insert_train_data (vals : List TrainRow) (s : PgState) : PgState :=
  if vals = [] then s else pgCommit (execValuesTrainData vals s)

/-- The `INSERT ... ON CONFLICT (date) DO NOTHING` (uncommitted). -/
def markExec (d : String) (s : PgState) : PgState :=
  if d ∈ s.marks ++ s.pendingMarks then s
  else { s with pendingMarks := s.pendingMarks ++ [d] }

/-- `mark_date_as_processed`: insert the marker and `conn.commit()`. -/
def mark_date_as_processed (d : String) (s : PgState) : PgState :=
  pgCommit (markExec d s)

/-- `is_date_processed`: membership in the committed marker table. -/
def is_date_processed (d : String) (s : PgState) : Bool :=
  decide (d ∈ s.marks)

/-! ### Import orchestration (`process_date_folder`, `import_data`) -/

structure DateFolder where
  name : String
  files : List XmlFile
deriving DecidableEq, Repr

inductive ProcOutcome
  | skipped
  | done
  | err
deriving DecidableEq, Repr

structure ProcResult where
  db : PgState
  deleted : Bool
  outcome : ProcOutcome
deriving DecidableEq, Repr

/-- `delete_date_folder`: removes the folder only when
`DELETE_XML_AFTER_IMPORT` enables deletion; returns whether it did. -/
def delete_date_folder (deleteEnabled : Bool) : Bool := deleteEnabled

/-- `process_date_folder`: skip (and clean up) an already-processed
date; otherwise parse, reconcile, bulk-insert, mark, clean up. An
exception during parsing or reconciliation propagates (`err`) before
any database write. -/
def process_date_folder (deleteEnabled : Bool) (alt : List (String × String))
    (folder : DateFolder) (db : PgState) : ProcResult :=
  if is_date_processed folder.name db then
    { db := db, deleted := delete_date_folder deleteEnabled, outcome := .skipped }
  else
    match reconcileDate alt folder.files with
    | .error _ => { db := db, deleted := false, outcome := .err }
    | .ok rows =>
        let db1 := bulk_insert_train_data rows db
        let db2 := mark_date_as_processed folder.name db1
        { db := db2, deleted := delete_date_folder deleteEnabled, outcome := .done }

/-- The batch loop of `import_data`: process each date folder, catching
a per-date exception and continuing with the next date. Returns the
final database state and the processed date names. -/
def importDataLoop (deleteEnabled : Bool) (alt : List (String × String)) :
    List DateFolder → PgState → PgState × List String
  | [], db => (db, [])
  | f :: fs, db =>
      let r := process_date_folder deleteEnabled alt f db
      match r.outcome with
      | .err => importDataLoop deleteEnabled alt fs r.db
      | _ =>
          let rest := importDataLoop deleteEnabled alt fs r.db
          (rest.1, f.name :: rest.2)

/-! ### Fetcher (`save_api_data` of `fetch_data.py`)

The retry loop is embedded as a trace of its observable actions; an
attempt's HTTP outcome (status ok or a caught
`RequestException`/`ConnectionError`) is an oracle `ok : Nat → Bool`.
The returned Bool states whether the destination file exists after the
call — the only failure signal the function gives its caller. -/

inductive FetchEv
  | acquire
  | request (i : Nat)
  | sleep1
  | writeFile
deriving DecidableEq, Repr

/-- The `for attempt in range(max_retries)` loop, with `fuel` the
remaining iterations. Each iteration acquires a rate-limit token, makes
the request, and on failure sleeps one second unless the attempt was
the last. -/
def saveLoop (maxRetries : Nat) (ok : Nat → Bool) : Nat → Nat → List FetchEv × Bool
  | _, 0 => ([], false)
  | attempt, fuel + 1 =>
      let pre := [FetchEv.acquire, FetchEv.request attempt]
      if ok attempt then (pre ++ [FetchEv.writeFile], true)
      else if attempt + 1 < maxRetries then
        let rest := saveLoop maxRetries ok (attempt + 1) fuel
        (pre ++ FetchEv.sleep1 :: rest.1, rest.2)
      else (pre, false)

/-- `save_api_data`: honour `skip_if_exists`, then run the bounded
retry loop; the function always returns normally on HTTP failures. -/
def save_api_data (maxRetries : Nat) (ok : Nat → Bool)
    (skipIfExists fileExists : Bool) : List FetchEv × Bool :=
  if skipIfExists && fileExists then ([], true)
  else saveLoop maxRetries ok 0 maxRetries

/-- Rate-limit tokens acquired in a fetch trace. -/
def countAcquires (l : List FetchEv) : Nat :=
  l.countP (fun e => e = FetchEv.acquire)

/-- HTTP attempts made in a fetch trace. -/
def countRequests (l : List FetchEv) : Nat :=
  l.countP (fun e => match e with | FetchEv.request _ => true | _ => false)

/-! ### Concrete snapshot data used by witnesses and counterexamples -/

def pgEmpty : PgState := ⟨[], [], [], []⟩

def planStopC5 : StopElem :=
  { id := "8000105-1"
    tl := some { c := some "ICE", n := some "123" }
    dp := some { pt := some "2401011000" } }

def planFileC5 : XmlFile :=
  { name := "8000105_plan_10.xml"
    station := some "Frankfurt Hbf"
    stops := [planStopC5] }

def fchgFileC5 : XmlFile :=
  { name := "8000105_fchg_10.xml"
    stops := [{ id := "8000105-1", dp := some { ct := some "2401011007" } }] }

def folderC5 : DateFolder := { name := "2024-01-01", files := [planFileC5, fchgFileC5] }

/-- The row `get_plan_xml_rows` produces for `planStopC5`. -/
def planRowC5 : PlanRow :=
  { id := "8000105-1"
    station := some "Frankfurt Hbf"
    train_name := some "ICE 123"
    final_destination_station := some "Frankfurt Hbf"
    train_type := some "ICE"
    arrival_planned_time := none
    departure_planned_time := some "2401011000"
    train_line_ride_id := "8000105"
    train_line_station_num := 1 }

/-- The persisted row for the C5 scenario. -/
def trainRowC5 : TrainRow :=
  { station := some "Frankfurt Hbf"
    train_name := some "ICE 123"
    final_destination_station := some "Frankfurt Hbf"
    delay_in_min := 7
    time := some 1063995007
    is_canceled := false
    train_type := some "ICE"
    train_line_ride_id := "8000105"
    train_line_station_num := 1
    arrival_planned_time := none
    arrival_change_time := none
    departure_planned_time := some 1063995000
    departure_change_time := some 1063995007 }

/-- Database state after the first (successful) import of `folderC5`. -/
def pgAfterC5 : PgState := ⟨[trainRowC5], ["2024-01-01"], [], []⟩

/-- A plan file whose only stop has neither an arrival nor a departure
element, so neither planned time is defined. -/
def planFileNoTimes : XmlFile :=
  { name := "x_plan_00.xml", station := some "S", stops := [{ id := "x-1" }] }

/-- A plan record with a defined departure planned time, used to
exercise the departure branch of the delay rule. -/
def planRecDep : PlanRec :=
  { id := "x-1"
    station := some "S"
    train_name := some "ICE 1"
    final_destination_station := some "S"
    train_type := some "ICE"
    arrival_planned_time := none
    departure_planned_time := some 100
    train_line_ride_id := "x"
    train_line_station_num := 1 }

/-- A minimal persisted row (used where only row identity matters). -/
def rowSimple : TrainRow :=
  { station := none
    train_name := none
    final_destination_station := none
    delay_in_min := 0
    time := none
    is_canceled := false
    train_type := none
    train_line_ride_id := ""
    train_line_station_num := 0
    arrival_planned_time := none
    arrival_change_time := none
    departure_planned_time := none
    departure_change_time := none }

/-- A change-file stop entry with no change time and no cancellation
marker on either side. -/
def stopEmptyC3 : StopElem := { id := "s-1" }

/-- An accumulator that already holds a change record for `"s-1"`. -/
def dictC3 : FchgDict :=
  [("s-1", { id := "s-1", arrival_change_time := none,
             departure_change_time := some "2401011010", is_canceled := false })]

def fchgFileC4 : XmlFile :=
  { name := "w_fchg_00.xml"
    stops := [{ id := "w-1", dp := some { ct := some "2401011005" } }] }

/-- The change record `get_fchg_db` builds from `fchgFileC4`. -/
def chgRecC4 : ChangeRec :=
  { id := "w-1"
    arrival_change_time := none
    departure_change_time := some 1063995005
    is_canceled := false }

def planRecC4 : PlanRec :=
  { id := "w-1"
    station := some "S"
    train_name := some "ICE 9"
    final_destination_station := some "S"
    train_type := some "ICE"
    arrival_planned_time := none
    departure_planned_time := some 1063995000
    train_line_ride_id := "w"
    train_line_station_num := 1 }

/-- A plan file on which `ET.parse` raises. -/
def badPlanFileC7 : XmlFile := { name := "a_plan_00.xml", wellFormed := false }

/-- A sibling plan file of the same date that parses fine. -/
def goodPlanFileC7 : XmlFile :=
  { name := "b_plan_01.xml"
    station := some "S"
    stops := [{ id := "y-2", dp := some { pt := some "2401011200" } }] }

def folderC7 : DateFolder := { name := "2024-01-02", files := [badPlanFileC7, goodPlanFileC7] }

/-- Earlier change file: a departure change for `"s-1"`. -/
def fchgFileA9 : XmlFile :=
  { name := "0_fchg_00.xml"
    stops := [{ id := "s-1", dp := some { ct := some "2401011010" } }] }

/-- Lexicographically later change file whose `"s-1"` entry carries
neither a change time nor a cancellation marker. -/
def fchgFileB9 : XmlFile := { name := "1_fchg_01.xml", stops := [{ id := "s-1" }] }

/-- Lexicographically later change file with a real departure change. -/
def fchgFileG9 : XmlFile :=
  { name := "1_fchg_01.xml"
    stops := [{ id := "s-1", dp := some { ct := some "2401011030" } }] }

/-- The record the earlier file `fchgFileA9` contributes. -/
def chgRecA9 : ChangeRec :=
  { id := "s-1"
    arrival_change_time := none
    departure_change_time := some 1063995010
    is_canceled := false }

/-- A plan file whose second stop has a non-numeric id suffix. -/
def planFileC10 : XmlFile :=
  { name := "z_plan_00.xml"
    station := some "S"
    stops := [{ id := "z-1", dp := some { pt := some "2401011000" } },
              { id := "abc" }] }

/-! ### Helper lemmas -/

theorem lookup_isSome_iff (m : FchgDict) (k : String) :
    (m.lookup k).isSome = true ↔ k ∈ m.map Prod.fst := by
  induction m with
  | nil => simp [List.lookup]
  | cons p t ih =>
      simp only [List.lookup, List.map_cons, List.mem_cons]
      by_cases h : k = p.1
      · simp [h]
      · have hb : (k == p.1) = false := by simpa using h
        simp [hb, ih, h]

theorem mapFst_overwrite (m : FchgDict) (k : String) (v : ChangeRow) :
    (m.map (fun p => if p.1 = k then (k, v) else p)).map Prod.fst = m.map Prod.fst := by
  induction m with
  | nil => rfl
  | cons p t ih =>
      by_cases h : p.1 = k <;> simp [h, ih]

/-- Invariant of the `id_to_data` dict: keys are distinct and each
stored row's id equals its key. -/
def DictOk (m : FchgDict) : Prop :=
  (m.map Prod.fst).Nodup ∧ ∀ p ∈ m, p.2.id = p.1

theorem dictOk_insert {m : FchgDict} {k : String} {v : ChangeRow}
    (h : DictOk m) (hv : v.id = k) : DictOk (dictInsert m k v) := by
  unfold dictInsert
  by_cases hl : (m.lookup k).isSome = true
  · rw [if_pos hl]
    refine ⟨by rw [mapFst_overwrite]; exact h.1, ?_⟩
    intro p hp
    rcases List.mem_map.mp hp with ⟨q, hq, rfl⟩
    by_cases hqk : q.1 = k
    · simp [hqk, hv]
    · simpa [hqk] using h.2 q hq
  · rw [if_neg hl]
    have hk : k ∉ m.map Prod.fst := fun hmem => hl ((lookup_isSome_iff m k).mpr hmem)
    refine ⟨?_, ?_⟩
    · rw [List.map_append]
      refine List.Nodup.append h.1 (List.nodup_singleton k) ?_
      intro a ha hb
      simp only [List.map_cons, List.map_nil, List.mem_singleton] at hb
      exact hk (hb ▸ ha)
    · intro p hp
      rcases List.mem_append.mp hp with hp | hp
      · exact h.2 p hp
      · simp only [List.mem_singleton] at hp
        subst hp
        exact hv

theorem fchgStep_ok {m : FchgDict} (h : DictOk m) (s : StopElem) :
    DictOk (fchgStep m s) := by
  unfold fchgStep
  split
  · exact h
  · exact dictOk_insert h rfl

theorem foldl_fchgStep_ok {m : FchgDict} (l : List StopElem) (h : DictOk m) :
    DictOk (l.foldl fchgStep m) := by
  induction l generalizing m with
  | nil => exact h
  | cons s t ih => exact ih (fchgStep_ok h s)

theorem fchgFold_ok {m m2 : FchgDict} (files : List XmlFile)
    (h : DictOk m) (hf : fchgFold files m = .ok m2) : DictOk m2 := by
  induction files generalizing m with
  | nil =>
      simp only [fchgFold, Except.ok.injEq] at hf
      exact hf ▸ h
  | cons f fs ih =>
      unfold fchgFold get_fchg_xml_rows at hf
      by_cases hw : f.wellFormed = true
      · rw [if_pos hw] at hf
        exact ih (foldl_fchgStep_ok _ h) hf
      · rw [if_neg hw] at hf
        cases hf

theorem dropDup_go_sublist {α : Type} [DecidableEq α] (seen l : List α) :
    List.Sublist (dropDuplicates.go seen l) l := by
  induction l generalizing seen with
  | nil => simp [dropDuplicates.go]
  | cons x xs ih =>
      unfold dropDuplicates.go
      by_cases h : x ∈ seen
      · rw [if_pos h]
        exact (ih seen).cons x
      · rw [if_neg h]
        exact (ih (x :: seen)).cons₂ x

theorem dropDuplicates_sublist {α : Type} [DecidableEq α] (l : List α) :
    List.Sublist (dropDuplicates l) l :=
  dropDup_go_sublist [] l

theorem get_fchg_db_ids_nodup {files : List XmlFile} {chg : List ChangeRec}
    (h : get_fchg_db files = .ok chg) : (chg.map (fun c => c.id)).Nodup := by
  unfold get_fchg_db at h
  cases hf : fchgFold ((pySorted (fun a b => pathLe a.name b.name) files).filter
      (fun f => strHasSub f.name "fchg")) [] with
  | error e =>
      rw [hf] at h
      cases h
  | ok m =>
      rw [hf] at h
      simp only [Except.ok.injEq] at h
      have hm : DictOk m := fchgFold_ok _ ⟨by simp, by simp⟩ hf
      have hids : ((m.map Prod.snd).map convertChangeRow).map (fun c => c.id) =
          m.map Prod.fst := by
        rw [List.map_map, List.map_map]
        exact List.map_congr_left (fun p hp => hm.2 p hp)
      have hsub :=
        (dropDuplicates_sublist ((m.map Prod.snd).map convertChangeRow)).map
          (fun c => c.id)
      rw [hids] at hsub
      rw [← h]
      exact hm.1.sublist hsub

theorem filter_eq_find_toList {chg : List ChangeRec} (k : String)
    (h : (chg.map (fun c => c.id)).Nodup) :
    chg.filter (fun c => c.id = k) = (chg.find? (fun c => c.id = k)).toList := by
  induction chg with
  | nil => rfl
  | cons c t ih =>
      simp only [List.map_cons, List.nodup_cons] at h
      by_cases hc : c.id = k
      · have hnil : t.filter (fun c => c.id = k) = [] := by
          rw [List.filter_eq_nil_iff]
          intro x hx
          simp only [decide_eq_true_eq]
          intro hxk
          exact h.1 (by rw [← hc] at hxk; exact hxk ▸ List.mem_map_of_mem _ hx)
        simp [List.filter_cons, List.find?_cons, hc, hnil]
      · simp [List.filter_cons, List.find?_cons, hc, ih h.2]

theorem flatMap_eq_map {α β : Type} (f : α → List β) (g : α → β) (l : List α)
    (h : ∀ a ∈ l, f a = [g a]) : l.flatMap f = l.map g := by
  induction l with
  | nil => rfl
  | cons a t ih =>
      rw [List.flatMap_cons, List.map_cons, h a (List.mem_cons_self a t),
        ih (fun x hx => h x (List.mem_cons_of_mem a hx))]
      rfl

theorem mapM_eq_error {α β : Type} (f : α → Except Unit β) (l : List α) (x : α)
    (hx : x ∈ l) (hf : f x = .error ()) : l.mapM f = .error () := by
  induction l with
  | nil => cases hx
  | cons y t ih =>
      rw [List.mapM_cons]
      rcases List.mem_cons.mp hx with rfl | hx
      · rw [hf]
        rfl
      · simp only [ih hx]
        cases hxy : f y with
        | error e =>
            cases e
            rfl
        | ok b => rfl

theorem mem_insertLe {α : Type} (le : α → α → Bool) (a x : α) (l : List α) :
    x ∈ insertLe le a l ↔ x = a ∨ x ∈ l := by
  induction l with
  | nil => simp [insertLe]
  | cons b t ih =>
      unfold insertLe
      by_cases h : le a b = true
      · simp [h]
      · simp only [if_neg h, List.mem_cons, ih]
        tauto

theorem mem_pySorted {α : Type} (le : α → α → Bool) (x : α) (l : List α)
    (h : x ∈ l) : x ∈ pySorted le l := by
  induction l with
  | nil => cases h
  | cons a t ih =>
      rcases List.mem_cons.mp h with rfl | h
      · exact (mem_insertLe le x x (pySorted le t)).mpr (Or.inl rfl)
      · exact (mem_insertLe le a x (pySorted le t)).mpr (Or.inr (ih h))

theorem mem_marks_mark (d : String) (s : PgState) :
    d ∈ (mark_date_as_processed d s).marks := by
  unfold mark_date_as_processed markExec pgCommit
  by_cases h : d ∈ s.marks ++ s.pendingMarks
  · rw [if_pos h]
    simpa using h
  · rw [if_neg h]
    simp

theorem saveLoop_acquire_eq_request (mr : Nat) (ok : Nat → Bool) :
    ∀ fuel a, countAcquires (saveLoop mr ok a fuel).1 =
      countRequests (saveLoop mr ok a fuel).1 := by
  intro fuel
  induction fuel with
  | zero => intro a; rfl
  | succ n ih =>
      intro a
      unfold saveLoop
      by_cases h : ok a = true
      · simp [h, countAcquires, countRequests, List.countP_cons]
      · simp only [h, Bool.false_eq_true, if_false]
        by_cases h2 : a + 1 < mr
        · simp only [if_pos h2]
          simp [countAcquires, countRequests, List.countP_cons, List.countP_append,
            ih (a + 1)]
          have := ih (a + 1)
          simp [countAcquires, countRequests] at this
          omega
        · simp [if_neg h2, countAcquires, countRequests, List.countP_cons]

theorem reconcileRowE_ok_canceled (p : PlanRec) (c : Option ChangeRec) (r : TrainRow)
    (hr : reconcileRowE p c = .ok r) :
    r.is_canceled = (c.map (fun x => x.is_canceled)).getD false := by
  simp only [reconcileRowE] at hr
  split at hr
  · cases hr
  · cases hr
    rfl

theorem planRowOf_ok_train_name (st : Option String) (s : StopElem) (r : PlanRow)
    (hr : planRowOf st s = .ok r) :
    r.train_name = trainNameOf (s.tl.bind (fun x => x.c)) (s.tl.bind (fun x => x.n))
      (s.ar.bind (fun x => x.l)) (s.dp.bind (fun x => x.l)) := by
  simp only [planRowOf] at hr
  split at hr
  · cases hr
  · cases hr
    rfl

theorem saveLoop_request_le (mr : Nat) (ok : Nat → Bool) :
    ∀ fuel a, countRequests (saveLoop mr ok a fuel).1 ≤ fuel := by
  intro fuel
  induction fuel with
  | zero => intro a; simp [saveLoop, countRequests]
  | succ n ih =>
      intro a
      unfold saveLoop
      by_cases h : ok a = true
      · simp [h, countRequests, List.countP_cons]
      · simp only [h, Bool.false_eq_true, if_false]
        by_cases h2 : a + 1 < mr
        · simp only [if_pos h2]
          have := ih (a + 1)
          simp [countRequests, List.countP_cons, List.countP_append] at this ⊢
          omega
        · simp [if_neg h2, countRequests, List.countP_cons]

/-! ### Claim theorems -/

/-- C1, counterexample: reconciling a date whose only stop has neither
an arrival nor a departure planned time does not retain the row with a
sentinel delay of 0 — the `astype("int32")` cast of the undefined delay
raises, so reconciliation of the whole date errors and produces no
output rows at all. -/
theorem delay_sentinel_counterexample :
    reconcileDate [] [planFileNoTimes] = .error () := rfl

/-- C1, amended: for every joined plan/change row, `delayInMinute`
equals the minutes of (departureChangeTime − departurePlannedTime)
whenever the departure planned time is defined (the change time falling
back to the planned time), independent of any arrival change on the
same stop; otherwise it equals the minutes of (arrivalChangeTime −
arrivalPlannedTime) whenever the arrival planned time is defined; and
when neither pair is defined the int32 cast raises, so the row is not
retained and the date's import fails. -/
theorem delay_precedence_amended :
    (∀ (p : PlanRec) (c : Option ChangeRec) (dpt : Nat),
      p.departure_planned_time = some dpt →
      (reconcileRowE p c).map (fun r => r.delay_in_min) =
        .ok (toInt32
          ((((c.bind (fun x => x.departure_change_time)).getD dpt : Nat) : Int) -
            (dpt : Int))))
    ∧ (∀ (p : PlanRec) (c : Option ChangeRec) (apt : Nat),
      p.departure_planned_time = none → p.arrival_planned_time = some apt →
      (reconcileRowE p c).map (fun r => r.delay_in_min) =
        .ok (toInt32
          ((((c.bind (fun x => x.arrival_change_time)).getD apt : Nat) : Int) -
            (apt : Int))))
    ∧ (∀ (p : PlanRec) (c : Option ChangeRec),
      p.departure_planned_time = none → p.arrival_planned_time = none →
      reconcileRowE p c = .error ()) := by
  refine ⟨?_, ?_, ?_⟩
  · intro p c dpt hdpt
    cases hc : c.bind (fun x => x.departure_change_time) with
    | none => simp [reconcileRowE, hdpt, hc, optSub, Option.orElse, Except.map]
    | some x => simp [reconcileRowE, hdpt, hc, optSub, Option.orElse, Except.map]
  · intro p c apt hdpt hapt
    cases hc : c.bind (fun x => x.arrival_change_time) with
    | none =>
        cases hcd : c.bind (fun x => x.departure_change_time) <;>
          simp [reconcileRowE, hdpt, hapt, hc, hcd, optSub, Option.orElse, Except.map]
    | some x =>
        cases hcd : c.bind (fun x => x.departure_change_time) <;>
          simp [reconcileRowE, hdpt, hapt, hc, hcd, optSub, Option.orElse, Except.map]
  · intro p c hdpt hapt
    cases hc : c.bind (fun x => x.arrival_change_time) <;>
      cases hcd : c.bind (fun x => x.departure_change_time) <;>
        simp [reconcileRowE, hdpt, hapt, hc, hcd, optSub, Option.orElse]

/-- C1, witness for the amended theorem: a plan record with departure
planned time 100 and no change record reconciles with delay 0. -/
theorem delay_precedence_amended_witness :
    (reconcileRowE planRecDep none).map (fun r => r.delay_in_min) = .ok 0 := by
  rw [delay_precedence_amended.1 planRecDep none 100 rfl]
  rfl

/-- C2, counterexample: run the persistence steps with a failure
between the two commits — after `bulk_insert_train_data` committed its
transaction and before `mark_date_as_processed` committed its own. The
inserted rows stay visible while the marker is absent: state is not
unchanged on error, contradicting single-transaction atomicity. -/
theorem txn_atomicity_counterexample :
    pgAbort (markExec "2024-01-01" (bulk_insert_train_data [rowSimple] pgEmpty)) ≠ pgEmpty
    ∧ (pgAbort (markExec "2024-01-01"
        (bulk_insert_train_data [rowSimple] pgEmpty))).rows = [rowSimple]
    ∧ is_date_processed "2024-01-01"
        (pgAbort (markExec "2024-01-01"
          (bulk_insert_train_data [rowSimple] pgEmpty))) = false := by
  refine ⟨?_, rfl, rfl⟩
  decide

/-- C2, amended: the bulk insert and the marker write are two separate
transactions, each with its own commit. After `bulk_insert_train_data`
returns, its rows are already committed and visible while the date is
still unmarked (and hence eligible for retry); a failure between the
two commits therefore leaves the inserted rows visible. Only a failure
before the bulk-insert commit leaves the state unchanged. -/
theorem txn_two_commits_amended (rows : List TrainRow) (d : String) (s : PgState)
    (hr : rows ≠ []) (hpr : s.pendingRows = []) (hpm : s.pendingMarks = [])
    (hd : d ∉ s.marks) :
    (bulk_insert_train_data rows s).rows = s.rows ++ rows
    ∧ (bulk_insert_train_data rows s).marks = s.marks
    ∧ is_date_processed d (bulk_insert_train_data rows s) = false
    ∧ (pgAbort (execValuesTrainData rows s)).rows = s.rows
    ∧ (pgAbort (execValuesTrainData rows s)).marks = s.marks := by
  unfold bulk_insert_train_data pgCommit execValuesTrainData pgAbort is_date_processed
  rw [if_neg hr]
  simp [hpr, hpm, hd]

/-- C2, witness for the amended theorem: inserting one row into the
empty database leaves it visible with the date unmarked. -/
theorem txn_two_commits_amended_witness :
    (bulk_insert_train_data [rowSimple] pgEmpty).rows = [rowSimple]
    ∧ is_date_processed "2024-01-01" (bulk_insert_train_data [rowSimple] pgEmpty)
        = false := by
  have h := txn_two_commits_amended [rowSimple] "2024-01-01" pgEmpty
    (List.cons_ne_nil _ _) rfl rfl (by simp [pgEmpty])
  exact ⟨by simpa [pgEmpty] using h.1, h.2.2.1⟩

/-- C3 (confirmed): a change-file stop entry carrying neither an
arrival nor a departure change time nor any cancellation marker is
skipped entirely: the accumulator map is returned unchanged, so any
previously accumulated change record for the same stopId survives. -/
theorem empty_change_entry_skipped (s : StopElem) (m : FchgDict)
    (h1 : s.ar.bind (fun x => x.ct) = none) (h2 : s.dp.bind (fun x => x.ct) = none)
    (h3 : s.ar.bind (fun x => x.clt) = none) (h4 : s.dp.bind (fun x => x.clt) = none) :
    fchgStep m s = m ∧ (fchgStep m s).lookup s.id = m.lookup s.id := by
  have hskip : fchgSkipQ s = true := by
    simp [fchgSkipQ, chgRowOf, h1, h2, h3, h4]
  exact ⟨by simp [fchgStep, hskip], by simp [fchgStep, hskip]⟩

/-- C3, witness: an empty stop entry leaves an accumulator that already
holds a change record for the same stopId untouched. -/
theorem empty_change_entry_skipped_witness :
    fchgStep dictC3 stopEmptyC3 = dictC3 :=
  (empty_change_entry_skipped stopEmptyC3 dictC3 rfl rfl rfl rfl).1

/-- C10 (confirmed): if any stop of a well-formed plan file has an id
whose suffix after the last "-" is not a Python integer, the
`int` conversion raises and the whole file's parse errors, producing no
record from that file. -/
theorem bad_id_suffix_aborts_file (alt : List (String × String)) (f : XmlFile)
    (s : StopElem) (hw : f.wellFormed = true) (hs : s ∈ f.stops)
    (hbad : pythonInt ((pySplit s.id '-').getLast!) = none) :
    get_plan_xml_rows alt f = .error () := by
  unfold get_plan_xml_rows
  rw [if_pos hw]
  refine mapM_eq_error _ _ s hs ?_
  simp [planRowOf, hbad]

/-- C10, witness: a plan file whose second stop id is "abc" (no dash,
non-numeric) yields no rows at all, including none for its first,
well-formed stop. -/
theorem bad_id_suffix_aborts_file_witness :
    get_plan_xml_rows [] planFileC10 = .error () :=
  bad_id_suffix_aborts_file [] planFileC10 { id := "abc" }
    rfl (by simp [planFileC10]) rfl

/-- C4 (confirmed): the merge is a left join of plan records onto
change records keyed by stopId. Against a change table produced by
`get_fchg_db` (whose stopIds are distinct) every plan record yields
exactly one output row — paired with the unique matching change record,
or with none; a change record whose stopId matches no plan record
appears in no output row; and a row with no matching change record
reconciles with `isCanceled = false`. -/
theorem reconcile_left_join (files : List XmlFile) (chg : List ChangeRec)
    (plan : List PlanRec) (h : get_fchg_db files = .ok chg) :
    pdMergeLeft plan chg = plan.map (fun p => (p, chg.find? (fun c => c.id = p.id)))
    ∧ (∀ c ∈ chg, c.id ∉ plan.map (fun p => p.id) →
        ∀ pr ∈ pdMergeLeft plan chg, pr.2 ≠ some c)
    ∧ (∀ (p : PlanRec) (r : TrainRow), reconcileRowE p none = .ok r →
        r.is_canceled = false) := by
  have hnd := get_fchg_db_ids_nodup h
  have hmerge : pdMergeLeft plan chg =
      plan.map (fun p => (p, chg.find? (fun c => c.id = p.id))) := by
    unfold pdMergeLeft
    refine flatMap_eq_map _ _ _ ?_
    intro p hp
    rw [filter_eq_find_toList p.id hnd]
    cases hfind : chg.find? (fun c => c.id = p.id) with
    | none => rfl
    | some c => rfl
  refine ⟨hmerge, ?_, ?_⟩
  · intro c hc hcid pr hpr hpr2
    rw [hmerge] at hpr
    rcases List.mem_map.mp hpr with ⟨p, hp, rfl⟩
    have hfind : chg.find? (fun x => x.id = p.id) = some c := hpr2
    have hcp : c.id = p.id := by simpa using List.find?_some hfind
    exact hcid (by rw [hcp]; exact List.mem_map_of_mem _ hp)
  · intro p r hr
    rw [reconcileRowE_ok_canceled p none r hr]
    rfl

/-- C4, witness: against the change table parsed from `fchgFileC4`, a
one-record plan list joins to exactly one row carrying the matching
change record. -/
theorem reconcile_left_join_witness :
    pdMergeLeft [planRecC4] [chgRecC4] =
      [(planRecC4, [chgRecC4].find? (fun c => c.id = planRecC4.id))] :=
  (reconcile_left_join [fchgFileC4] [chgRecC4] [planRecC4] rfl).1

/-- C5 (confirmed): `trainName` follows the exact precedence — premium
types (IC/ICE/EC) use `"<type> <trainNumber>"`; otherwise an arrival
line number, then a departure line number, is appended to the type;
otherwise the name is the bare type. The concrete scenario: plan stop
`"8000105-1"` at `"Frankfurt Hbf"`, type ICE, number 123, planned
departure 2024-01-01T10:00, with a change reporting departure
2024-01-01T10:07, reconciles to `trainName = "ICE 123"`,
`delayInMinute = 7`, `time` = the changed departure time, and
`isCanceled = false`. -/
theorem train_name_precedence_and_scenario :
    (∀ (st : Option String) (s : StopElem) (r : PlanRow) (t n : String),
      planRowOf st s = .ok r → s.tl = some { c := some t, n := some n } →
      (t = "IC" ∨ t = "ICE" ∨ t = "EC") →
      r.train_name = some (t ++ " " ++ n))
    ∧ (∀ (st : Option String) (s : StopElem) (r : PlanRow) (t l : String),
      planRowOf st s = .ok r → s.tl.bind (fun x => x.c) = some t →
      ¬(t = "IC" ∨ t = "ICE" ∨ t = "EC") →
      s.ar.bind (fun x => x.l) = some l →
      r.train_name = some (t ++ " " ++ l))
    ∧ (∀ (st : Option String) (s : StopElem) (r : PlanRow) (t l : String),
      planRowOf st s = .ok r → s.tl.bind (fun x => x.c) = some t →
      ¬(t = "IC" ∨ t = "ICE" ∨ t = "EC") →
      s.ar.bind (fun x => x.l) = none → s.dp.bind (fun x => x.l) = some l →
      r.train_name = some (t ++ " " ++ l))
    ∧ (∀ (st : Option String) (s : StopElem) (r : PlanRow) (t : String),
      planRowOf st s = .ok r → s.tl.bind (fun x => x.c) = some t →
      ¬(t = "IC" ∨ t = "ICE" ∨ t = "EC") →
      s.ar.bind (fun x => x.l) = none → s.dp.bind (fun x => x.l) = none →
      r.train_name = some t)
    ∧ (reconcileDate [] folderC5.files).map
        (fun rows => rows.map (fun r =>
          (r.train_name, r.delay_in_min, r.time, r.is_canceled))) =
      .ok [(some "ICE 123", 7, parseYYMMDDHHMM "2401011007", false)] := by
  refine ⟨?_, ?_, ?_, ?_, rfl⟩
  · intro st s r t n hr htl ht
    rw [planRowOf_ok_train_name st s r hr]
    have hc : s.tl.bind (fun x => x.c) = some t := by rw [htl]; rfl
    have hn : s.tl.bind (fun x => x.n) = some n := by rw [htl]; rfl
    rw [hc, hn]
    rcases ht with rfl | rfl | rfl <;> simp [trainNameOf, pyFormat]
  · intro st s r t l hr hc hnp hl
    have ht' : ¬(some t = some "IC" ∨ some t = some "ICE" ∨ some t = some "EC") := by
      simpa using hnp
    rw [planRowOf_ok_train_name st s r hr, hc, hl]
    unfold trainNameOf
    rw [if_neg ht']
    simp [pyFormat]
  · intro st s r t l hr hc hnp hal hdl
    have ht' : ¬(some t = some "IC" ∨ some t = some "ICE" ∨ some t = some "EC") := by
      simpa using hnp
    rw [planRowOf_ok_train_name st s r hr, hc, hal, hdl]
    unfold trainNameOf
    rw [if_neg ht']
    simp [pyFormat]
  · intro st s r t hr hc hnp hal hdl
    have ht' : ¬(some t = some "IC" ∨ some t = some "ICE" ∨ some t = some "EC") := by
      simpa using hnp
    rw [planRowOf_ok_train_name st s r hr, hc, hal, hdl]
    unfold trainNameOf
    rw [if_neg ht']
    simp [pyFormat]

/-- C5, witness: the premium branch applied to the scenario's plan stop
gives the name "ICE 123". -/
theorem train_name_precedence_witness :
    planRowC5.train_name = some "ICE 123" :=
  train_name_precedence_and_scenario.1 (some "Frankfurt Hbf") planStopC5 planRowC5
    "ICE" "123" rfl rfl (Or.inr (Or.inl rfl))

/-- C6 (confirmed): after a successful import of a date (outcome
`done`), running `process_date_folder` on the same date again returns
the database unchanged (zero new rows), skips the work, and — with
cleanup enabled — still deletes the leftover snapshot folder. -/
theorem reimport_idempotent (del : Bool) (alt : List (String × String))
    (folder : DateFolder) (db db2 : PgState) (dl : Bool)
    (h : process_date_folder del alt folder db = ⟨db2, dl, .done⟩) :
    process_date_folder true alt folder db2 = ⟨db2, true, .skipped⟩ := by
  have hmem : folder.name ∈ db2.marks := by
    unfold process_date_folder at h
    by_cases hg : is_date_processed folder.name db = true
    · rw [if_pos hg] at h
      simp at h
    · rw [if_neg hg] at h
      cases hrec : reconcileDate alt folder.files with
      | error e =>
          rw [hrec] at h
          simp at h
      | ok rows =>
          rw [hrec] at h
          simp only [ProcResult.mk.injEq] at h
          obtain ⟨hdb, -, -⟩ := h
          rw [← hdb]
          exact mem_marks_mark folder.name (bulk_insert_train_data rows db)
  unfold process_date_folder
  rw [if_pos (by simpa [is_date_processed] using hmem)]
  rfl

/-- C6, witness: re-running the scenario date import against the state
left by its first run changes nothing and reports the folder deleted. -/
theorem reimport_idempotent_witness :
    process_date_folder true [] folderC5 pgAfterC5 = ⟨pgAfterC5, true, .skipped⟩ :=
  reimport_idempotent false [] folderC5 pgEmpty pgAfterC5 false rfl

/-- C7, counterexample: one malformed plan file in a date folder aborts
the whole date: `process_date_folder` propagates the exception and no
rows are imported, even though the sibling file of the same date parses
on its own to one row. The exception is not caught at the file level. -/
theorem file_error_counterexample :
    process_date_folder false [] folderC7 pgEmpty = ⟨pgEmpty, false, .err⟩
    ∧ (get_plan_xml_rows [] goodPlanFileC7).map (fun l => l.length) = .ok 1 :=
  ⟨rfl, rfl⟩

/-- C7, amended: a malformed XML file fails its whole date, not just
itself: with an unprocessed date whose folder contains a malformed plan
file, `process_date_folder` returns the error outcome with the
database untouched (sibling files contribute nothing), and the batch
loop of `import_data` catches the failure at the date level and
continues with the remaining dates. -/
theorem file_error_date_level_amended :
    (∀ (del : Bool) (alt : List (String × String)) (folder : DateFolder)
        (db : PgState) (f : XmlFile),
      f ∈ folder.files → strHasSub f.name "plan" = true → f.wellFormed = false →
      is_date_processed folder.name db = false →
      process_date_folder del alt folder db = ⟨db, false, .err⟩)
    ∧ (∀ (del : Bool) (alt : List (String × String)) (f : DateFolder)
        (fs : List DateFolder) (db : PgState),
      process_date_folder del alt f db = ⟨db, false, .err⟩ →
      importDataLoop del alt (f :: fs) db = importDataLoop del alt fs db) := by
  constructor
  · intro del alt folder db f hmem hplan hbad hun
    have hperr : get_plan_xml_rows alt f = .error () := by
      simp [get_plan_xml_rows, hbad]
    have hdberr : get_plan_db alt folder.files = .error () := by
      unfold get_plan_db
      have hf : f ∈ (pySorted (fun a b => pathLe a.name b.name) folder.files).filter
          (fun x => strHasSub x.name "plan") :=
        List.mem_filter.mpr ⟨mem_pySorted _ _ _ hmem, hplan⟩
      rw [mapM_eq_error (get_plan_xml_rows alt) _ f hf hperr]
    unfold process_date_folder
    rw [if_neg (by simp [hun])]
    unfold reconcileDate
    rw [hdberr]
  · intro del alt f fs db h
    conv_lhs => rw [importDataLoop]
    rw [h]

/-- C7, witness for the amended theorem: the date with the malformed
file contributes nothing and the batch loop carries on. -/
theorem file_error_date_level_witness :
    importDataLoop false [] [folderC7] pgEmpty = (pgEmpty, []) := by
  have h1 := file_error_date_level_amended.1 false [] folderC7 pgEmpty badPlanFileC7
    (by simp [folderC7]) rfl rfl rfl
  have h2 := file_error_date_level_amended.2 false [] folderC7 [] pgEmpty h1
  simpa [importDataLoop] using h2

/-- C8 (confirmed): with every HTTP attempt failing, `save_api_data`
makes exactly 4 attempts, acquiring a fresh rate-limit token before
each one and sleeping once (1 second) between consecutive attempts,
then returns normally with no destination file — absence of the file is
the only failure signal. In general each attempt is preceded by its own
token acquisition and the attempt count never exceeds the retry
bound. -/
theorem fetch_retry_bounded (ok : Nat → Bool) (h0 : ok 0 = false)
    (h1 : ok 1 = false) (h2 : ok 2 = false) (h3 : ok 3 = false) :
    save_api_data 4 ok false false =
      ([.acquire, .request 0, .sleep1, .acquire, .request 1, .sleep1,
        .acquire, .request 2, .sleep1, .acquire, .request 3], false)
    ∧ (∀ (mr : Nat) (ok2 : Nat → Bool) (skip ex : Bool),
        countAcquires (save_api_data mr ok2 skip ex).1 =
          countRequests (save_api_data mr ok2 skip ex).1)
    ∧ (∀ (mr : Nat) (ok2 : Nat → Bool) (skip ex : Bool),
        countRequests (save_api_data mr ok2 skip ex).1 ≤ mr) := by
  refine ⟨?_, ?_, ?_⟩
  · simp [save_api_data, saveLoop, h0, h1, h2, h3]
  · intro mr ok2 skip ex
    unfold save_api_data
    by_cases hs : (skip && ex) = true
    · rw [if_pos hs]
      rfl
    · rw [if_neg hs]
      exact saveLoop_acquire_eq_request mr ok2 mr 0
  · intro mr ok2 skip ex
    unfold save_api_data
    by_cases hs : (skip && ex) = true
    · rw [if_pos hs]
      simp [countRequests]
    · rw [if_neg hs]
      exact saveLoop_request_le mr ok2 mr 0

/-- C8, witness: the all-failures trace at the default bound of 4. -/
theorem fetch_retry_bounded_witness :
    save_api_data 4 (fun _ => false) false false =
      ([.acquire, .request 0, .sleep1, .acquire, .request 1, .sleep1,
        .acquire, .request 2, .sleep1, .acquire, .request 3], false) :=
  (fetch_retry_bounded (fun _ => false) rfl rfl rfl rfl).1

/-- C9, counterexample: the lexicographically later change file's entry
for `"s-1"` carries neither a change time nor a cancellation marker, so
it does not replace the earlier record: `get_fchg_db` keeps the earlier
file's record (with its departure change time), not the later entry's
empty values. -/
theorem last_file_wins_counterexample :
    get_fchg_db [fchgFileB9, fchgFileA9] = .ok [chgRecA9]
    ∧ chgRecA9.departure_change_time ≠ none :=
  ⟨rfl, by decide⟩

/-- C9, amended: change files are folded in ascending lexicographic
filename order, and a later file's entry for a stopId replaces the
earlier record wholesale — provided the entry carries a change time or
a cancellation marker; an entry with neither is skipped and the earlier
record survives. -/
theorem last_file_wins_amended (f g : XmlFile) (k : String) (sf sg : StopElem)
    (hfw : f.wellFormed = true) (hgw : g.wellFormed = true)
    (hfs : f.stops = [sf]) (hgs : g.stops = [sg])
    (hfk : sf.id = k) (hgk : sg.id = k)
    (hfn : strHasSub f.name "fchg" = true) (hgn : strHasSub g.name "fchg" = true)
    (hord : pathLe g.name f.name = false)
    (hns : fchgSkipQ sg = false) :
    get_fchg_db [g, f] = .ok [convertChangeRow (chgRowOf sg)] := by
  unfold get_fchg_db
  have hsort : pySorted (fun a b => pathLe a.name b.name) [g, f] = [f, g] := by
    simp [pySorted, insertLe, hord]
  rw [hsort]
  rw [show List.filter (fun x => strHasSub x.name "fchg") [f, g] = [f, g] by
    simp [List.filter_cons, hfn, hgn]]
  have h1 : get_fchg_xml_rows f [] = .ok (fchgStep [] sf) := by
    simp [get_fchg_xml_rows, hfw, hfs]
  have h2 : ∀ m, get_fchg_xml_rows g m = .ok (fchgStep m sg) := by
    intro m
    simp [get_fchg_xml_rows, hgw, hgs]
  have hfold : fchgFold [f, g] [] = .ok (fchgStep (fchgStep [] sf) sg) := by
    simp [fchgFold, h1, h2]
  rw [hfold]
  have hdict : fchgStep (fchgStep [] sf) sg = [(k, chgRowOf sg)] := by
    by_cases hsf : fchgSkipQ sf = true
    · simp [fchgStep, hsf, hns, dictInsert, hgk, List.lookup]
    · simp [fchgStep, hsf, hns, dictInsert, hfk, hgk, List.lookup]
  rw [hdict]
  simp [dropDuplicates, dropDuplicates.go]

/-- C9, witness for the amended theorem: a later file with a real
departure change replaces the earlier record wholesale. -/
theorem last_file_wins_amended_witness :
    get_fchg_db [fchgFileG9, fchgFileA9] =
      .ok [convertChangeRow (chgRowOf
        { id := "s-1", dp := some { ct := some "2401011030" } })] :=
  last_file_wins_amended fchgFileA9 fchgFileG9 "s-1"
    { id := "s-1", dp := some { ct := some "2401011010" } }
    { id := "s-1", dp := some { ct := some "2401011030" } }
    rfl rfl rfl rfl rfl rfl rfl rfl rfl rfl

end Zug
